import Mathlib

/-!
Shallow embedding of the collaborative-sheet enrichment backend
(`src/backend/src/services/sheet.service.ts`,
`data-enrichment.service.ts`, `collaboration.service.ts`), together with
theorems checking the specification's claims against it.

JavaScript objects and `Map`s are modelled as association lists that keep
insertion order; `undefined` and `null` are explicit `Value` constructors;
`Date` values are modelled by an abstract clock `now : Nat` threaded into
each operation; thrown exceptions are modelled with `Except JsError`.
-/

namespace Enrichment

/-- A JavaScript value stored in a cell or an enriched field. -/
inductive Value where
  | vUndef
  | vNull
  | vBool (b : Bool)
  | vNum (n : Int)
  | vStr (s : String)
  | vObj (fields : List (String × Value))

/-- JavaScript truthiness for `Value`. -/
def Value.truthy : Value → Bool
  | .vUndef => false
  | .vNull => false
  | .vBool b => b
  | .vNum n => n ≠ 0
  | .vStr s => s ≠ ""
  | .vObj _ => true

/-- `toString()` on a JavaScript value (objects stringify as in JS). -/
def Value.jsToString : Value → String
  | .vUndef => "undefined"
  | .vNull => "null"
  | .vBool b => if b then "true" else "false"
  | .vNum n => toString n
  | .vStr s => s
  | .vObj _ => "[object Object]"

/-- `m.get(k)` on a JS `Map` / property read on an object keyed by strings. -/
def alookup {α : Type} : List (String × α) → String → Option α
  | [], _ => none
  | (k, v) :: rest, key => if k = key then some v else alookup rest key

/-- `m.set(k, v)` / property write: updates in place, appends if absent. -/
def aset {α : Type} : List (String × α) → String → α → List (String × α)
  | [], key, v => [(key, v)]
  | (k, w) :: rest, key, v =>
      if k = key then (k, v) :: rest else (k, w) :: aset rest key v

/-- `m.delete(k)`: removes the entry with the given key. -/
def adel {α : Type} : List (String × α) → String → List (String × α)
  | [], _ => []
  | (k, w) :: rest, key => if k = key then rest else (k, w) :: adel rest key

/-! ## Sheet data model (`src/backend/src/types/sheet.types.ts`) -/

/-- `Cell.metadata` as written by the service (`lastModified`, `modifiedBy`). -/
structure CellMeta where
  lastModified : Nat
  modifiedBy : String

/-- A cell; `isLoading` absent in TS reads back as `false` via `|| false`. -/
structure Cell where
  value : Value
  isLoading : Bool := false
  meta : Option CellMeta := none

/-- A row is a JS object: string keys to cells, insertion-ordered. -/
abbrev Row := List (String × Cell)

/-- A sheet column. -/
structure Column where
  id : String
  name : String
  type : String
  editable : Bool
  options : List String := []

structure SheetMeta where
  totalRows : Nat
  totalColumns : Nat
  lastModified : Nat
  version : Nat
  editableFields : List String

structure Permissions where
  owner : String
  editors : List String := []
  viewers : List String := []
  isPublic : Bool := false

structure Settings where
  autoSave : Bool
  enableCollaboration : Bool
  enableEnrichment : Bool

structure Sheet where
  id : String
  name : String
  description : String
  columns : List Column
  rows : List Row
  metadata : SheetMeta
  permissions : Permissions
  settings : Settings

structure SheetOperation where
  type : String
  sheetId : String
  userId : String
  timestamp : Nat
  data : Value
  version : Nat

/-- `EnrichmentResult` of `data-enrichment.service.ts`: `rowIndex` is a JS
number (modelled `Int` since the service bounds-checks `rowIndex >= 0`). -/
structure EnrichmentResult where
  rowIndex : Int
  data : Value
  enrichedFields : List (String × Value)

/-! ## String helpers used by `SheetService` -/

/-- `id.replace(/_/g, ' ').replace(/\b\w/g, l => l.toUpperCase())`:
the recursion tracks whether the previous character was a non-word
character (a `\b\w` position). -/
def isWordChar (c : Char) : Bool := c.isAlphanum || c = '_'

def capitalizeWordStarts : List Char → Bool → List Char
  | [], _ => []
  | c :: rest, atBoundary =>
      let c' := if atBoundary && isWordChar c then c.toUpper else c
      c' :: capitalizeWordStarts rest (!isWordChar c)

def formatColumnName (id : String) : String :=
  ⟨capitalizeWordStarts (id.data.map (fun c => if c = '_' then ' ' else c)) true⟩

/-- `name.toLowerCase().replace(/\s+/g, '_')`: each maximal whitespace run
becomes a single underscore; the flag records being inside a run. -/
def squashWs : List Char → Bool → List Char
  | [], _ => []
  | c :: rest, inRun =>
      if c.isWhitespace then
        (if inRun then [] else ['_']) ++ squashWs rest true
      else c :: squashWs rest false

def columnIdOfName (name : String) : String := ⟨squashWs name.toLower.data false⟩

/-- The column-type regex `^\d{2}\.\d{3}\.\d{3}\/\d{4}-\d{2}$`. -/
def cnpjTypeRegex (s : String) : Bool :=
  match s.data with
  | [a, b, '.', c, d, e, '.', f, g, h, '/', i, j, k, l, '-', m, n] =>
      [a, b, c, d, e, f, g, h, i, j, k, l, m, n].all Char.isDigit
  | _ => false

/-- The column-type regex `^\(\d{2}\)\s\d{4,5}-\d{4}$`. -/
def phoneTypeRegex (s : String) : Bool :=
  match s.data with
  | '(' :: a :: b :: ')' :: w :: rest =>
      a.isDigit && b.isDigit && w.isWhitespace &&
      (match rest with
       | [p, q, r, t, '-', u, v, x, y] => [p, q, r, t, u, v, x, y].all Char.isDigit
       | [p, q, r, t, o, '-', u, v, x, y] => [p, q, r, t, o, u, v, x, y].all Char.isDigit
       | _ => false)
  | _ => false

/-! ## SheetService pure operations (`sheet.service.ts`)

`Date.parse` is host-defined, so `detectColumnType` takes an abstract
oracle `dateParse`; fresh UUIDs and clock readings are parameters. -/

def detectColumnType (dateParse : String → Bool) : Value → String
  | .vNum _ => "number"
  | .vStr s =>
      if s.data.contains '@' then "email"
      else if cnpjTypeRegex s then "cnpj"
      else if phoneTypeRegex s then "phone"
      else if dateParse s then "date"
      else "text"
  | _ => "text"

def isEditableField (key : String) : Bool :=
  ["nome", "email", "telefone", "empresa", "status", "cnpj"].contains key.toLower

def defaultColumns : List Column :=
  [ { id := "nome", name := "Nome", type := "text", editable := true },
    { id := "empresa", name := "Empresa", type := "text", editable := true },
    { id := "cnpj", name := "CNPJ", type := "cnpj", editable := true },
    { id := "email", name := "Email", type := "email", editable := true },
    { id := "telefone", name := "Telefone", type := "phone", editable := true },
    { id := "status", name := "Status", type := "select", editable := true,
      options := ["Ativo", "Pendente", "Inativo"] } ]

def detectColumns (dateParse : String → Bool)
    (data : List (List (String × Value))) : List Column :=
  match data with
  | [] => defaultColumns
  | firstRow :: _ =>
      firstRow.map fun p =>
        { id := p.1, name := formatColumnName p.1,
          type := detectColumnType dateParse p.2, editable := isEditableField p.1 }

def convertDataToRows (now : Nat) (data : List (List (String × Value)))
    (columns : List Column) : List Row :=
  data.map fun row =>
    columns.foldl (fun cellRow column =>
      match alookup row column.id with
      | none => cellRow
      | some Value.vUndef => cellRow
      | some v => aset cellRow column.id ⟨v, false, some ⟨now, "system"⟩⟩) ([] : Row)

def createSheetPure (dateParse : String → Bool) (sheetId name : String)
    (initialData : List (List (String × Value))) (userId : String) (now : Nat) : Sheet :=
  let columns := detectColumns dateParse initialData
  let rows := convertDataToRows now initialData columns
  { id := sheetId,
    name := name,
    description := "Planilha criada em " ++ toString now,
    columns := columns,
    rows := rows,
    metadata :=
      { totalRows := rows.length,
        totalColumns := columns.length,
        lastModified := now,
        version := 1,
        editableFields := (columns.filter (fun col => col.editable)).map (fun col => col.id) },
    permissions := { owner := userId },
    settings := { autoSave := true, enableCollaboration := true, enableEnrichment := true } }

/-- `while (sheet.rows.length <= rowIndex) sheet.rows.push({})`. -/
def padRows (rows : List Row) (rowIndex : Nat) : List Row :=
  rows ++ List.replicate (rowIndex + 1 - rows.length) ([] : Row)

/-- `updateCell` body after the sheet lookup. The `if (!sheet.rows[rowIndex])`
re-initialisation is a no-op once the padding loop has run. -/
def updateCellPure (s : Sheet) (rowIndex : Nat) (columnId : String) (v : Value)
    (userId : String) (now : Nat) : Sheet :=
  let rows := padRows s.rows rowIndex
  let row := rows.getD rowIndex []
  let rows := rows.set rowIndex (aset row columnId ⟨v, false, some ⟨now, userId⟩⟩)
  { s with
    rows := rows,
    metadata :=
      { s.metadata with
        lastModified := now,
        version := s.metadata.version + 1,
        totalRows := max s.metadata.totalRows (rowIndex + 1) } }

def addRowPure (s : Sheet) (data : List (String × Value)) (userId : String) (now : Nat) : Sheet :=
  let rowData : Row := data.foldl (fun acc p => aset acc p.1 ⟨p.2, false, some ⟨now, userId⟩⟩) []
  let rows := s.rows ++ [rowData]
  { s with
    rows := rows,
    metadata :=
      { s.metadata with
        totalRows := rows.length,
        lastModified := now,
        version := s.metadata.version + 1 } }

def addColumnPure (s : Sheet) (name ctype : String) (editable : Bool)
    (options : List String) (now : Nat) : Sheet :=
  let newColumn : Column :=
    { id := columnIdOfName name,
      name := name,
      type := ctype,
      editable := editable,
      options := options }
  let columns := s.columns ++ [newColumn]
  let editableFields :=
    if editable then s.metadata.editableFields ++ [newColumn.id] else s.metadata.editableFields
  { s with
    columns := columns,
    metadata :=
      { s.metadata with
        totalColumns := columns.length,
        lastModified := now,
        version := s.metadata.version + 1,
        editableFields := editableFields } }

/-- The inner `Object.keys(enrichedFields).forEach` of `applyEnrichmentResults`:
skips `undefined`/`null` values, creates the column on first sight of a key
(updating `totalColumns` right after the push), writes the cell with
`isLoading: false`. -/
def applyFields (columns : List Column) (totalColumns : Nat) (row : Row) :
    List (String × Value) → List Column × Nat × Row
  | [] => (columns, totalColumns, row)
  | (key, v) :: rest =>
      match v with
      | .vUndef => applyFields columns totalColumns row rest
      | .vNull => applyFields columns totalColumns row rest
      | v =>
          let step :=
            if columns.any (fun col => col.id = key) then (columns, totalColumns)
            else
              (columns ++ [({ id := key, name := formatColumnName key,
                              type := "enriched", editable := false } : Column)],
               columns.length + 1)
          applyFields step.1 step.2 (aset row key ⟨v, false, none⟩) rest

/-- One iteration of the `results.forEach` of `applyEnrichmentResults`. -/
def applyOneResult (now : Nat) (s : Sheet) (r : EnrichmentResult) : Sheet :=
  if 0 ≤ r.rowIndex ∧ r.rowIndex < (s.rows.length : Int) then
    let i := r.rowIndex.toNat
    let row := s.rows.getD i []
    let fcr := applyFields s.columns s.metadata.totalColumns row r.enrichedFields
    let row := aset fcr.2.2 "_enriched" { value := .vBool true }
    let row := aset row "_enriched_at" { value := .vStr (toString now) }
    { s with
      columns := fcr.1,
      rows := s.rows.set i row,
      metadata := { s.metadata with totalColumns := fcr.2.1 } }
  else s

def applyEnrichmentResultsPure (s : Sheet) (results : List EnrichmentResult) (now : Nat) : Sheet :=
  let s := results.foldl (applyOneResult now) s
  { s with
    metadata :=
      { s.metadata with
        lastModified := now,
        version := s.metadata.version + 1 } }

def loadingCell : Cell := { value := .vStr "loading", isLoading := true }

def markLoadingRow (row : Row) (columnIds : List String) : Row :=
  columnIds.foldl (fun row cid => aset row cid loadingCell) row

def markCellsAsLoadingPure (s : Sheet) (rowIndices : List Int) (columnIds : List String)
    (now : Nat) : Sheet :=
  let rows := rowIndices.foldl (fun (rows : List Row) ri =>
    if 0 ≤ ri ∧ ri < (rows.length : Int) then
      rows.set ri.toNat (markLoadingRow (rows.getD ri.toNat []) columnIds)
    else rows) s.rows
  { s with
    rows := rows,
    metadata := { s.metadata with version := s.metadata.version + 1, lastModified := now } }

/-! ## Read-side operations -/

def simpleRowOf (row : Row) : List (String × Value) :=
  row.map fun p => (p.1, p.2.value)

/-- `simpleRow[cnpjField] && simpleRow[cnpjField].toString().trim() !== ''`. -/
def rowHasCnpj (simple : List (String × Value)) (cnpjField : String) : Bool :=
  match alookup simple cnpjField with
  | some v => v.truthy && !(v.jsToString.trim = "")
  | none => false

/-- `simpleRow['_enriched'] === true`. -/
def rowIsEnriched (simple : List (String × Value)) : Bool :=
  match alookup simple "_enriched" with
  | some (.vBool true) => true
  | _ => false

def getUnenrichedRowsPure (s : Sheet) (cnpjField : String) :
    List (Nat × List (String × Value)) :=
  s.rows.enum.filterMap fun p =>
    let simple := simpleRowOf p.2
    if rowHasCnpj simple cnpjField && !rowIsEnriched simple then some (p.1, simple) else none

structure EnrichStats where
  total : Nat
  enriched : Nat
  unenriched : Nat
  withCnpj : Nat

def getEnrichmentStatsPure (s : Sheet) (cnpjField : String) : EnrichStats :=
  let acc := s.rows.foldl (fun (acc : Nat × Nat × Nat) row =>
    let simple := simpleRowOf row
    if rowHasCnpj simple cnpjField then
      if rowIsEnriched simple then (acc.1 + 1, acc.2.1, acc.2.2 + 1)
      else (acc.1, acc.2.1 + 1, acc.2.2 + 1)
    else acc) (0, 0, 0)
  { total := s.rows.length, enriched := acc.1, unenriched := acc.2.1, withCnpj := acc.2.2 }

structure SimpleCell where
  value : Value
  isLoading : Bool

def getSheetDataPure (s : Sheet) :
    List Column × List (List (String × SimpleCell)) × SheetMeta :=
  (s.columns,
   s.rows.map (fun row => row.map fun p => (p.1, ⟨p.2.value, p.2.isLoading⟩)),
   s.metadata)

/-- The row at index `i` exists and carries the `_enriched` marker cell
exactly as written by `applyEnrichmentResults`. -/
def markedAt (s : Sheet) (i : Nat) : Prop :=
  ∃ row, s.rows[i]? = some row ∧
    alookup row "_enriched" = some { value := Value.vBool true }

/-! ## Service layer: in-memory store, thrown errors, operation history -/

/-- Thrown JS exceptions: NestJS `NotFoundException`, plain `Error`, and the
`TypeError` raised by dereferencing `undefined`. -/
inductive JsError where
  | notFoundException (msg : String)
  | jsError (msg : String)
  | typeError (msg : String)

structure SvcState where
  sheets : List (String × Sheet)
  operations : List (String × List SheetOperation)

def emptySvc : SvcState := ⟨[], []⟩

/-- `recordOperation`: append, then keep only the last 1000 entries. -/
def recordOperation (st : SvcState) (sheetId : String) (op : SheetOperation) : SvcState :=
  let ops := (alookup st.operations sheetId).getD [] ++ [op]
  let ops := if ops.length > 1000 then ops.drop (ops.length - 1000) else ops
  { st with operations := aset st.operations sheetId ops }

def createSheetSvc (st : SvcState) (dateParse : String → Bool) (sheetId name : String)
    (initialData : List (List (String × Value))) (userId : String) (now : Nat) :
    Sheet × SvcState :=
  let sheet := createSheetPure dateParse sheetId name initialData userId now
  (sheet,
   { sheets := aset st.sheets sheetId sheet,
     operations := aset st.operations sheetId [] })

/-- `getSheet`: throws `NotFoundException` for an unknown id. -/
def getSheetSvc (st : SvcState) (sheetId : String) : Except JsError Sheet :=
  match alookup st.sheets sheetId with
  | none => .error (.notFoundException ("Sheet with ID " ++ sheetId ++ " not found"))
  | some s => .ok s

def getSheetDataSvc (st : SvcState) (sheetId : String) :
    Except JsError (List Column × List (List (String × SimpleCell)) × SheetMeta) :=
  (getSheetSvc st sheetId).map getSheetDataPure

def updateCellSvc (st : SvcState) (sheetId : String) (rowIndex : Nat) (columnId : String)
    (v : Value) (userId : String) (now : Nat) : Except JsError (Sheet × SvcState) :=
  (getSheetSvc st sheetId).map fun s =>
    let oldValue := ((alookup (s.rows.getD rowIndex []) columnId).map Cell.value).getD .vUndef
    let s := updateCellPure s rowIndex columnId v userId now
    let op : SheetOperation :=
      { type := "cell_update",
        sheetId := sheetId,
        userId := userId,
        timestamp := now,
        data := .vObj [("rowIndex", .vNum rowIndex), ("columnId", .vStr columnId),
                       ("oldValue", oldValue), ("newValue", v)],
        version := s.metadata.version }
    (s, recordOperation { st with sheets := aset st.sheets sheetId s } sheetId op)

def addRowSvc (st : SvcState) (sheetId : String) (data : List (String × Value))
    (userId : String) (now : Nat) : Except JsError (Sheet × SvcState) :=
  (getSheetSvc st sheetId).map fun s =>
    let s := addRowPure s data userId now
    let op : SheetOperation :=
      { type := "row_insert",
        sheetId := sheetId,
        userId := userId,
        timestamp := now,
        data := .vObj [("rowIndex", .vNum (s.rows.length - 1 : Nat)),
                       ("rowData", .vObj data)],
        version := s.metadata.version }
    (s, recordOperation { st with sheets := aset st.sheets sheetId s } sheetId op)

def addColumnSvc (st : SvcState) (sheetId : String) (name ctype : String)
    (editable : Bool) (options : List String) (userId : String) (now : Nat) :
    Except JsError (Sheet × SvcState) :=
  (getSheetSvc st sheetId).map fun s =>
    let s := addColumnPure s name ctype editable options now
    let op : SheetOperation :=
      { type := "column_insert",
        sheetId := sheetId,
        userId := userId,
        timestamp := now,
        data := .vObj [("column", .vStr (columnIdOfName name))],
        version := s.metadata.version }
    (s, recordOperation { st with sheets := aset st.sheets sheetId s } sheetId op)

/-- `applyEnrichmentResults` throws a plain `Error` for an unknown id. -/
def applyEnrichmentResultsSvc (st : SvcState) (sheetId : String)
    (results : List EnrichmentResult) (now : Nat) : Except JsError (Sheet × SvcState) :=
  match alookup st.sheets sheetId with
  | none => .error (.jsError ("Sheet " ++ sheetId ++ " not found"))
  | some s =>
      let s := applyEnrichmentResultsPure s results now
      let op : SheetOperation :=
        { type := "enrichment_update",
          sheetId := sheetId,
          userId := "enrichment_system",
          timestamp := now,
          data := .vObj [("affectedRows", .vObj (results.map fun r => ("", .vNum r.rowIndex)))],
          version := s.metadata.version }
      .ok (s, recordOperation { st with sheets := aset st.sheets sheetId s } sheetId op)

def getUnenrichedRowsSvc (st : SvcState) (sheetId : String) (cnpjField : String) :
    Except JsError (List (Nat × List (String × Value))) :=
  match alookup st.sheets sheetId with
  | none => .error (.jsError ("Sheet " ++ sheetId ++ " not found"))
  | some s => .ok (getUnenrichedRowsPure s cnpjField)

def getEnrichmentStatsSvc (st : SvcState) (sheetId : String) (cnpjField : String) :
    Except JsError EnrichStats :=
  match alookup st.sheets sheetId with
  | none => .error (.jsError ("Sheet " ++ sheetId ++ " not found"))
  | some s => .ok (getEnrichmentStatsPure s cnpjField)

def markCellsAsLoadingSvc (st : SvcState) (sheetId : String) (rowIndices : List Int)
    (columnIds : List String) (now : Nat) : Except JsError SvcState :=
  match alookup st.sheets sheetId with
  | none => .error (.jsError ("Sheet " ++ sheetId ++ " not found"))
  | some s =>
      let s := markCellsAsLoadingPure s rowIndices columnIds now
      .ok { st with sheets := aset st.sheets sheetId s }

/-- `getOperationHistory`: `operations.get(id) || []`, last `limit` entries
(`slice(-limit)`, which is the whole array when `limit` is `0`), reversed.
It never throws. -/
def getOperationHistorySvc (st : SvcState) (sheetId : String) (limit : Nat) :
    List SheetOperation :=
  let ops := (alookup st.operations sheetId).getD []
  let sliced := if limit = 0 then ops else ops.drop (ops.length - limit)
  sliced.reverse

/-! ## Accepted mutations on one sheet (for the version invariant) -/

/-- One accepted mutating call on a stored sheet, with the data it carries
and the clock reading at the call. -/
inductive Mutation where
  | mUpdateCell (rowIndex : Nat) (columnId : String) (v : Value) (userId : String) (now : Nat)
  | mAddRow (data : List (String × Value)) (userId : String) (now : Nat)
  | mAddColumn (name ctype : String) (editable : Bool) (options : List String) (now : Nat)
  | mApplyEnrichment (results : List EnrichmentResult) (now : Nat)
  | mMarkLoading (rowIndices : List Int) (columnIds : List String) (now : Nat)

def applyMutation (s : Sheet) : Mutation → Sheet
  | .mUpdateCell rowIndex columnId v userId now => updateCellPure s rowIndex columnId v userId now
  | .mAddRow data userId now => addRowPure s data userId now
  | .mAddColumn name ctype editable options now => addColumnPure s name ctype editable options now
  | .mApplyEnrichment results now => applyEnrichmentResultsPure s results now
  | .mMarkLoading rowIndices columnIds now => markCellsAsLoadingPure s rowIndices columnIds now

def applyMutations (s : Sheet) (ms : List Mutation) : Sheet :=
  ms.foldl applyMutation s

/-! ## CNPJ validation (`OpenCNPJService`, `opencnpj.service.ts`) -/

/-- `cnpj.replace(/\D/g, '')`. -/
def cleanCNPJ (s : String) : List Char := s.data.filter Char.isDigit

def digitVal (c : Char) : Nat := c.toNat - '0'.toNat

def cnpjWeights1 : List Nat := [5, 4, 3, 2, 9, 8, 7, 6, 5, 4, 3, 2]
def cnpjWeights2 : List Nat := [6, 5, 4, 3, 2, 9, 8, 7, 6, 5, 4, 3, 2]

def weightedSum (ds ws : List Nat) : Nat :=
  ((ds.zip ws).map fun p => p.1 * p.2).sum

/-- `sum % 11 < 2 ? 0 : 11 - (sum % 11)`. -/
def cnpjCheckDigit (sum : Nat) : Nat :=
  if sum % 11 < 2 then 0 else 11 - sum % 11

/-- `/^(\d)\1{13}$/` applied to a string already known to be 14 digits:
all characters equal the first. -/
def allSameDigit : List Char → Bool
  | [] => true
  | c :: rest => rest.all fun d => d = c

/-- `validateCNPJCheckDigits` on the list of the 14 digit values. -/
def validateCNPJCheckDigits (ds : List Nat) : Bool :=
  let d1 := cnpjCheckDigit (weightedSum (ds.take 12) cnpjWeights1)
  if d1 ≠ ds.getD 12 0 then false
  else cnpjCheckDigit (weightedSum (ds.take 13) cnpjWeights2) = ds.getD 13 0

/-- `validateCNPJFormat`. -/
def validateCNPJFormat (s : String) : Bool :=
  let clean := cleanCNPJ s
  if clean.length ≠ 14 then false
  else if allSameDigit clean then false
  else validateCNPJCheckDigits (clean.map digitVal)

/-- The specification's characterisation of tax-id validity, written from
the spec's words (not from the code): after stripping all non-digit
characters there are exactly 14 digits, the digits are not all identical,
and both check digits are correct under the two-pass weighted-modulo-11
algorithm with weights `[5,4,3,2,9,8,7,6,5,4,3,2]` then
`[6,5,4,3,2,9,8,7,6,5,4,3,2]` (remainder < 2 gives check digit 0,
otherwise 11 minus the remainder). -/
def cnpjSpecValid (s : String) : Prop :=
  let stripped := s.data.filter Char.isDigit
  let digits := stripped.map digitVal
  stripped.length = 14 ∧
  (¬ ∀ c ∈ stripped, c = stripped.headD '0') ∧
  digits.getD 12 0 =
    (if (weightedSum (digits.take 12) [5, 4, 3, 2, 9, 8, 7, 6, 5, 4, 3, 2]) % 11 < 2 then 0
     else 11 - (weightedSum (digits.take 12) [5, 4, 3, 2, 9, 8, 7, 6, 5, 4, 3, 2]) % 11) ∧
  digits.getD 13 0 =
    (if (weightedSum (digits.take 13) [6, 5, 4, 3, 2, 9, 8, 7, 6, 5, 4, 3, 2]) % 11 < 2 then 0
     else 11 - (weightedSum (digits.take 13) [6, 5, 4, 3, 2, 9, 8, 7, 6, 5, 4, 3, 2]) % 11)

/-! ## Enrichment sessions (`DataEnrichmentService`)

The service runs batches concurrently on the Node event loop;
`cancelEnrichment` can only run at an `await` boundary.  The boundaries at
which the code reads `session.status` are the dispatch loop head and the
per-item loop head, so a run is modelled sequentially with an explicit
`CancelPoint` naming the boundary at which the cancellation (if any) is
delivered.  `performEnrichment` contacts external APIs and is abstracted
as an oracle `perform`; it catches every failure internally (returning the
error payload below), so the `catch` branch of `startEnrichment` is
unreachable and the model has no error path. -/

inductive SessionStatus where
  | pending
  | processing
  | completed
  | cancelled
  | error
deriving DecidableEq

structure EnrichmentProgress where
  processed : Nat
  total : Nat
  percentage : Nat
  currentBatch : Nat

structure EnrichmentSession where
  id : String
  status : SessionStatus
  progress : EnrichmentProgress
  results : List EnrichmentResult
  startTime : Nat
  endTime : Option Nat := none

/-- `Math.round((processed / total) * 100)` modelled exactly on rationals
(round half up); `total = 0` never reaches this computation. -/
def jsRoundPct (p t : Nat) : Nat :=
  if t = 0 then 0 else (200 * p + t) / (2 * t)

/-- The payload `performEnrichment` returns when a lookup fails
(its `catch` branch). -/
def enrichmentErrorPayload (msg code : String) : List (String × Value) :=
  [("error", Value.vBool true),
   ("error_message", Value.vStr msg),
   ("error_code", Value.vStr code)]

/-- What `cancelEnrichment` does to a session it finds. -/
def cancelSession (t : Nat) (s : EnrichmentSession) : EnrichmentSession :=
  { s with status := .cancelled, endTime := some t }

/-- `cancelEnrichment(sessionId)` over the whole session store. -/
def cancelEnrichment (sessions : List (String × EnrichmentSession))
    (sessionId : String) (t : Nat) : List (String × EnrichmentSession) :=
  match alookup sessions sessionId with
  | none => sessions
  | some s => aset sessions sessionId (cancelSession t s)

/-- The `await` boundary at which a pending `cancelEnrichment` call is
delivered: just before the dispatch-loop check of batch `b` (0-based), or
just before the item-loop check of item `i` of batch `b`. -/
inductive CancelPoint where
  | beforeDispatch (b : Nat)
  | beforeItem (b : Nat) (i : Nat)
deriving DecidableEq

/-- `createBatches`: the loop `for (i = 0; i < len; i += batchSize)
push(slice(i, i + batchSize))`, i.e. batch `k` is the slice starting at
`k * batchSize`, for `k < ⌈len / batchSize⌉`.  The service always calls it
with `options.batchSize || 50 ≥ 1` (the `i += 0` loop of `batchSize = 0`
never terminates in JS and is modelled as unreachable). -/
def createBatches (batchSize : Nat) (data : List Value) : List (List Value) :=
  if batchSize = 0 then []
  else (List.range ((data.length + batchSize - 1) / batchSize)).map
    fun k => (data.drop (k * batchSize)).take batchSize

/-- The item loop of `processBatch`: checks for cancellation before each
item, enriches, updates progress. -/
def batchItemLoop (perform : Value → List (String × Value))
    (cancelAt : Option Nat) (tCancel : Nat) (batchNumber batchSize : Nat)
    (originalIndices : Option (List Int)) :
    List Value → Nat → EnrichmentSession → List EnrichmentResult →
    EnrichmentSession × List EnrichmentResult
  | [], _, s, acc => (s, acc)
  | item :: rest, i, s, acc =>
      let s := if cancelAt = some i then cancelSession tCancel s else s
      if s.status = .cancelled then (s, acc)
      else
        let pos := (batchNumber - 1) * batchSize + i
        let originalIndex : Int :=
          match originalIndices with
          | some l => l.getD pos 0
          | none => (pos : Int)
        let res : EnrichmentResult :=
          { rowIndex := originalIndex, data := item, enrichedFields := perform item }
        let processed := s.progress.processed + 1
        let s :=
          { s with progress :=
              { s.progress with
                processed := processed,
                percentage := jsRoundPct processed s.progress.total,
                currentBatch := batchNumber } }
        batchItemLoop perform cancelAt tCancel batchNumber batchSize originalIndices
          rest (i + 1) s (acc ++ [res])

/-- `processBatch`: returns untouched if the session is already cancelled,
otherwise runs the items and appends this batch's partial results. -/
def processBatchModel (perform : Value → List (String × Value))
    (cancelAt : Option Nat) (tCancel : Nat) (batch : List Value)
    (batchNumber batchSize : Nat) (originalIndices : Option (List Int))
    (s : EnrichmentSession) : EnrichmentSession :=
  if s.status = .cancelled then s
  else
    let r := batchItemLoop perform cancelAt tCancel batchNumber batchSize
      originalIndices batch 0 s []
    if r.2.length > 0 then { r.1 with results := r.1.results ++ r.2 } else r.1

/-- The dispatch loop of `processBatchesInParallel`: checks for
cancellation before dispatching each batch, returning early (remaining
batches never launched) when cancelled. -/
def dispatchLoop (perform : Value → List (String × Value))
    (cp : Option CancelPoint) (tCancel : Nat) (batchSize : Nat)
    (originalIndices : Option (List Int)) :
    List (List Value) → Nat → EnrichmentSession → EnrichmentSession
  | [], _, s => s
  | batch :: rest, bIdx, s =>
      let s := if cp = some (.beforeDispatch bIdx) then cancelSession tCancel s else s
      if s.status = .cancelled then s
      else
        let cancelAt : Option Nat :=
          match cp with
          | some (.beforeItem b i) => if b = bIdx then some i else none
          | _ => none
        let s := processBatchModel perform cancelAt tCancel batch (bIdx + 1) batchSize
          originalIndices s
        dispatchLoop perform cp tCancel batchSize originalIndices rest (bIdx + 1) s

/-- `processBatchesInParallel`: marks the session `processing`, then runs
the dispatch loop. -/
def processBatchesInParallelModel (perform : Value → List (String × Value))
    (cp : Option CancelPoint) (tCancel : Nat) (batchSize : Nat)
    (originalIndices : Option (List Int)) (batches : List (List Value))
    (s : EnrichmentSession) : EnrichmentSession :=
  dispatchLoop perform cp tCancel batchSize originalIndices batches 0
    { s with status := .processing }

/-- `startEnrichment`: creates the session, processes the batches, then
(lines 87-93) unconditionally marks the session completed. -/
def startEnrichmentModel (perform : Value → List (String × Value))
    (cp : Option CancelPoint) (tCancel : Nat) (data : List Value)
    (batchSize : Nat) (originalIndices : Option (List Int))
    (sessionId : String) (t0 tEnd : Nat) : EnrichmentSession :=
  let session : EnrichmentSession :=
    { id := sessionId,
      status := .pending,
      progress := { processed := 0, total := data.length, percentage := 0, currentBatch := 0 },
      results := [],
      startTime := t0 }
  let batches := createBatches batchSize data
  let session := processBatchesInParallelModel perform cp tCancel batchSize
    originalIndices batches session
  { session with
    status := .completed,
    endTime := some tEnd,
    progress := { session.progress with percentage := 100 } }

/-! ## Collaboration service (`collaboration.service.ts`) -/

structure CursorPos where
  row : Nat
  column : String

structure UserCursor where
  userId : String
  userName : String
  color : String
  position : CursorPos

structure CollaborationEvent where
  type : String
  sheetId : String
  userId : String
  userName : String
  cursor : Option UserCursor
  activeUsers : List UserCursor
  timestamp : Nat

/-- The five in-memory maps of `CollaborationService`.  Note that
`sheetUsers` and `userCursors` are distinct fields from `sheetSessions`
and `activeUsers`, exactly as in the source. -/
structure CollabState where
  activeUsers : List (String × List (String × UserCursor))
  userSessions : List (String × List String)
  sheetSessions : List (String × List String)
  sheetUsers : List (String × List String)
  userCursors : List (String × List (String × UserCursor))

def emptyCollab : CollabState := ⟨[], [], [], [], []⟩

def userColors : List String :=
  ["#FF6B6B", "#4ECDC4", "#45B7D1", "#96CEB4", "#FFEAA7",
   "#DDA0DD", "#98D8C8", "#F7DC6F", "#BB8FCE", "#85C1E9",
   "#F8C471", "#82E0AA", "#F1948A", "#85C1E9", "#D2B4DE"]

/-- JS `ToInt32` (the result of `<<` and `& 0xffffffff`). -/
def toInt32 (z : Int) : Int :=
  let m := z % 4294967296
  if m < 2147483648 then m else m - 4294967296

/-- One step of `generateUserColor`'s hash:
`((hash << 5) - hash + charCode) & 0xffffffff`. -/
def hashStep (h : Int) (c : Char) : Int :=
  toInt32 (toInt32 (h * 32) - h + (c.toNat : Int))

def generateUserColor (userId : String) : String :=
  let h := userId.data.foldl hashStep 0
  userColors.getD (h.natAbs % userColors.length) ""

def getActiveUsersC (st : CollabState) (sheetId : String) : List UserCursor :=
  match alookup st.activeUsers sheetId with
  | none => []
  | some m => m.map Prod.snd

/-- `userJoinSheet` (the `socketId` argument is unused by the source
method body). -/
def userJoinSheet (st : CollabState) (sheetId userId userName socketId : String)
    (now : Nat) : CollaborationEvent × CollabState :=
  let _ := socketId
  let st := if (alookup st.activeUsers sheetId).isSome then st
            else { st with activeUsers := aset st.activeUsers sheetId [] }
  let st := if (alookup st.sheetSessions sheetId).isSome then st
            else { st with sheetSessions := aset st.sheetSessions sheetId [] }
  let st := if (alookup st.userSessions userId).isSome then st
            else { st with userSessions := aset st.userSessions userId [] }
  let sess := (alookup st.sheetSessions sheetId).getD []
  let sess := if sess.contains userId then sess else sess ++ [userId]
  let st := { st with sheetSessions := aset st.sheetSessions sheetId sess }
  let userSheets := (alookup st.userSessions userId).getD []
  let userSheets := if userSheets.contains sheetId then userSheets else userSheets ++ [sheetId]
  let st := { st with userSessions := aset st.userSessions userId userSheets }
  let cursor : UserCursor :=
    { userId := userId, userName := userName, color := generateUserColor userId,
      position := { row := 0, column := "nome" } }
  let au := (alookup st.activeUsers sheetId).getD []
  let st := { st with activeUsers := aset st.activeUsers sheetId (aset au userId cursor) }
  ({ type := "user_joined",
     sheetId := sheetId,
     userId := userId,
     userName := userName,
     cursor := some cursor,
     activeUsers := getActiveUsersC st sheetId,
     timestamp := now }, st)

/-- `userLeaveSheet`.  After the guard, the source executes
`this.sheetUsers.get(sheetId)!.delete(userId)` and
`this.userCursors.get(sheetId)!.delete(userId)`; when those maps have no
entry for `sheetId` the non-null assertion dereferences `undefined` and
the call throws a `TypeError`. -/
def userLeaveSheet (st : CollabState) (sheetId userId : String) (now : Nat) :
    Except JsError (Option CollaborationEvent × CollabState) :=
  match alookup st.sheetSessions sheetId,
        alookup st.userSessions userId,
        alookup st.activeUsers sheetId with
  | some sheetUsersL, some userSheets, some activeU =>
      let cursor := alookup activeU userId
      let userName := (cursor.map fun c => c.userName).getD "Unknown User"
      let sheetUsersL := sheetUsersL.erase userId
      let activeU := adel activeU userId
      let userSheets := userSheets.erase sheetId
      match alookup st.sheetUsers sheetId with
      | none => .error (.typeError "Cannot read properties of undefined (reading 'delete')")
      | some su =>
        match alookup st.userCursors sheetId with
        | none => .error (.typeError "Cannot read properties of undefined (reading 'delete')")
        | some uc =>
            let st :=
              { st with
                sheetSessions := aset st.sheetSessions sheetId sheetUsersL,
                activeUsers := aset st.activeUsers sheetId activeU,
                userSessions := aset st.userSessions userId userSheets,
                sheetUsers := aset st.sheetUsers sheetId (su.erase userId),
                userCursors := aset st.userCursors sheetId (adel uc userId) }
            let st :=
              if sheetUsersL.length = 0 then
                { st with
                  sheetSessions := adel st.sheetSessions sheetId,
                  activeUsers := adel st.activeUsers sheetId,
                  sheetUsers := adel st.sheetUsers sheetId,
                  userCursors := adel st.userCursors sheetId }
              else st
            let st :=
              if userSheets.length = 0 then
                { st with userSessions := adel st.userSessions userId }
              else st
            .ok (some
              { type := "user_left",
                sheetId := sheetId,
                userId := userId,
                userName := userName,
                cursor := none,
                activeUsers := getActiveUsersC st sheetId,
                timestamp := now }, st)
  | _, _, _ => .ok (none, st)

/-! ## Concrete fixtures used by witnesses and counterexamples -/

def sampleSheet : Sheet :=
  createSheetPure (fun _ => false) "sheet-1" "Clientes"
    [[("cnpj", Value.vStr "11222333000181")]] "user-1" 0

def c3WitnessResult : EnrichmentResult :=
  { rowIndex := 0, data := Value.vNull, enrichedFields := [("company_name", Value.vStr "ACME")] }

def processingSessionExample : EnrichmentSession :=
  { id := "sess-2",
    status := .processing,
    progress := { processed := 0, total := 2, percentage := 0, currentBatch := 0 },
    results := [],
    startTime := 0 }

def completedSessionExample : EnrichmentSession :=
  { id := "sess-1",
    status := .completed,
    progress := { processed := 2, total := 2, percentage := 100, currentBatch := 2 },
    results := [],
    startTime := 0,
    endTime := some 5 }

/-- The size invariants of a stored sheet: the `totalRows` and
`totalColumns` metadata agree with the actual row and column counts. -/
def sheetInv (s : Sheet) : Prop :=
  s.metadata.totalRows = s.rows.length ∧ s.metadata.totalColumns = s.columns.length

/-! ## Association-list lemmas -/

theorem alookup_aset_self {α : Type} (l : List (String × α)) (k : String) (v : α) :
    alookup (aset l k v) k = some v := by
  induction l with
  | nil => simp [aset, alookup]
  | cons p rest ih =>
      obtain ⟨k', w⟩ := p
      by_cases h : k' = k <;> simp [aset, alookup, h, ih]

theorem alookup_aset_ne {α : Type} (l : List (String × α)) (k k' : String) (v : α)
    (h : k ≠ k') : alookup (aset l k v) k' = alookup l k' := by
  induction l with
  | nil => simp [aset, alookup, h]
  | cons p rest ih =>
      obtain ⟨k₀, w⟩ := p
      by_cases h0 : k₀ = k
      · subst h0; simp [aset, alookup, h]
      · simp [aset, alookup, h0, ih]

/-! ## Version counting (claim C1) -/

theorem applyOneResult_metadata_version (now : Nat) (s : Sheet) (r : EnrichmentResult) :
    (applyOneResult now s r).metadata.version = s.metadata.version := by
  unfold applyOneResult
  split <;> rfl

theorem foldl_applyOneResult_version (now : Nat) (results : List EnrichmentResult) :
    ∀ s : Sheet, (results.foldl (applyOneResult now) s).metadata.version = s.metadata.version := by
  induction results with
  | nil => intro s; rfl
  | cons r rest ih =>
      intro s
      simp only [List.foldl_cons]
      rw [ih, applyOneResult_metadata_version]

theorem applyMutation_version (s : Sheet) (m : Mutation) :
    (applyMutation s m).metadata.version = s.metadata.version + 1 := by
  cases m with
  | mApplyEnrichment results now =>
      show (applyEnrichmentResultsPure s results now).metadata.version = s.metadata.version + 1
      unfold applyEnrichmentResultsPure
      simp only
      rw [foldl_applyOneResult_version]
  | mUpdateCell rowIndex columnId v userId now => rfl
  | mAddRow data userId now => rfl
  | mAddColumn name ctype editable options now => rfl
  | mMarkLoading rowIndices columnIds now => rfl

theorem applyMutations_version (s : Sheet) (ms : List Mutation) :
    (applyMutations s ms).metadata.version = s.metadata.version + ms.length := by
  induction ms generalizing s with
  | nil => rfl
  | cons m rest ih =>
      show (applyMutations (applyMutation s m) rest).metadata.version = _
      rw [ih, applyMutation_version, List.length_cons]
      omega

/-- C1: every accepted mutation (`updateCell`, `addRow`, `addColumn`,
`applyEnrichmentResults`, `markCellsAsLoading`) increments
`metadata.version` by exactly 1, so after `N` mutations the version is the
initial version plus `N`, and no two states along the trace (the states
after each prefix of the mutation sequence) share a version. -/
theorem version_strictly_counts_mutations (s : Sheet) (ms : List Mutation) :
    (applyMutations s ms).metadata.version = s.metadata.version + ms.length ∧
    (∀ i j, i < j → j ≤ ms.length →
      (applyMutations s (ms.take i)).metadata.version ≠
        (applyMutations s (ms.take j)).metadata.version) := by
  refine ⟨applyMutations_version s ms, ?_⟩
  intro i j hij hj
  rw [applyMutations_version, applyMutations_version, List.length_take, List.length_take]
  omega

theorem version_strictly_counts_mutations_witness :
    (applyMutations sampleSheet
        [Mutation.mAddRow [] "u" 1, Mutation.mMarkLoading [] [] 2]).metadata.version
      = sampleSheet.metadata.version + 2 ∧
    (applyMutations sampleSheet
        ([Mutation.mAddRow [] "u" 1, Mutation.mMarkLoading [] [] 2].take 0)).metadata.version ≠
      (applyMutations sampleSheet
        ([Mutation.mAddRow [] "u" 1, Mutation.mMarkLoading [] [] 2].take 2)).metadata.version :=
  ⟨(version_strictly_counts_mutations sampleSheet _).1,
   (version_strictly_counts_mutations sampleSheet _).2 0 2 (by decide) (by decide)⟩

/-! ## Size invariants (claim C9) -/

theorem padRows_length (rows : List Row) (rowIndex : Nat) :
    (padRows rows rowIndex).length = max rows.length (rowIndex + 1) := by
  simp [padRows]
  omega

theorem applyFields_totalColumns :
    ∀ (fields : List (String × Value)) (cols : List Column) (tc : Nat) (row : Row),
      tc = cols.length →
      (applyFields cols tc row fields).2.1 = (applyFields cols tc row fields).1.length := by
  intro fields
  induction fields with
  | nil => intro cols tc row h; simpa [applyFields] using h
  | cons p rest ih =>
      intro cols tc row h
      obtain ⟨key, v⟩ := p
      cases v with
      | vUndef => exact ih cols tc row h
      | vNull => exact ih cols tc row h
      | vBool b =>
          by_cases hany : cols.any (fun col => col.id = key)
          · simp only [applyFields, if_pos hany]
            exact ih _ _ _ h
          · simp only [applyFields, if_neg hany]
            exact ih _ _ _ (by simp)
      | vNum n =>
          by_cases hany : cols.any (fun col => col.id = key)
          · simp only [applyFields, if_pos hany]
            exact ih _ _ _ h
          · simp only [applyFields, if_neg hany]
            exact ih _ _ _ (by simp)
      | vStr str =>
          by_cases hany : cols.any (fun col => col.id = key)
          · simp only [applyFields, if_pos hany]
            exact ih _ _ _ h
          · simp only [applyFields, if_neg hany]
            exact ih _ _ _ (by simp)
      | vObj fs =>
          by_cases hany : cols.any (fun col => col.id = key)
          · simp only [applyFields, if_pos hany]
            exact ih _ _ _ h
          · simp only [applyFields, if_neg hany]
            exact ih _ _ _ (by simp)

theorem applyOneResult_rows_length (now : Nat) (s : Sheet) (r : EnrichmentResult) :
    (applyOneResult now s r).rows.length = s.rows.length := by
  unfold applyOneResult
  split
  · simp [List.length_set]
  · rfl

theorem applyOneResult_inv (now : Nat) (s : Sheet) (r : EnrichmentResult)
    (h : sheetInv s) : sheetInv (applyOneResult now s r) := by
  unfold sheetInv at h ⊢
  constructor
  · rw [applyOneResult_rows_length]
    unfold applyOneResult
    split <;> exact h.1
  · unfold applyOneResult
    split
    · simp only
      exact applyFields_totalColumns r.enrichedFields s.columns s.metadata.totalColumns _ h.2
    · exact h.2

theorem foldl_applyOneResult_inv (now : Nat) :
    ∀ (results : List EnrichmentResult) (s : Sheet),
      sheetInv s → sheetInv (results.foldl (applyOneResult now) s) := by
  intro results
  induction results with
  | nil => intro s h; exact h
  | cons r rest ih =>
      intro s h
      exact ih (applyOneResult now s r) (applyOneResult_inv now s r h)

theorem markLoading_rows_length (columnIds : List String) :
    ∀ (rowIndices : List Int) (rows : List Row),
      (rowIndices.foldl (fun (rows : List Row) ri =>
        if 0 ≤ ri ∧ ri < (rows.length : Int) then
          rows.set ri.toNat (markLoadingRow (rows.getD ri.toNat []) columnIds)
        else rows) rows).length = rows.length := by
  intro rowIndices
  induction rowIndices with
  | nil => intro rows; rfl
  | cons ri rest ih =>
      intro rows
      simp only [List.foldl_cons]
      split
      · rw [ih, List.length_set]
      · rw [ih]

/-- C9: `createSheet` establishes, and every mutation (`updateCell`,
`addRow`, `addColumn`, `applyEnrichmentResults`, `markCellsAsLoading`)
preserves, the invariants `metadata.totalRows = rows.length` and
`metadata.totalColumns = columns.length`. -/
theorem mutations_preserve_size_invariants :
    (∀ (dateParse : String → Bool) (sheetId name : String)
       (initialData : List (List (String × Value))) (userId : String) (now : Nat),
       sheetInv (createSheetPure dateParse sheetId name initialData userId now)) ∧
    (∀ (s : Sheet) (m : Mutation), sheetInv s → sheetInv (applyMutation s m)) := by
  constructor
  · intro dateParse sheetId name initialData userId now
    exact ⟨rfl, rfl⟩
  · intro s m h
    cases m with
    | mUpdateCell rowIndex columnId v userId now =>
        refine ⟨?_, h.2⟩
        show max s.metadata.totalRows (rowIndex + 1)
          = ((padRows s.rows rowIndex).set rowIndex _).length
        rw [List.length_set, padRows_length, h.1]
    | mAddRow data userId now =>
        refine ⟨?_, h.2⟩
        rfl
    | mAddColumn name ctype editable options now =>
        refine ⟨?_, ?_⟩
        · exact h.1
        · rfl
    | mApplyEnrichment results now =>
        have := foldl_applyOneResult_inv now results s h
        exact ⟨this.1, this.2⟩
    | mMarkLoading rowIndices columnIds now =>
        refine ⟨?_, h.2⟩
        show s.metadata.totalRows =
          (rowIndices.foldl (fun (rows : List Row) ri =>
            if 0 ≤ ri ∧ ri < (rows.length : Int) then
              rows.set ri.toNat (markLoadingRow (rows.getD ri.toNat []) columnIds)
            else rows) s.rows).length
        rw [markLoading_rows_length, h.1]

theorem mutations_preserve_size_invariants_witness :
    sheetInv (createSheetPure (fun _ => false) "sheet-1" "Clientes"
      [[("cnpj", Value.vStr "11222333000181")]] "user-1" 0) ∧
    sheetInv (applyMutation sampleSheet (Mutation.mAddRow [("nome", Value.vStr "A")] "u" 3)) :=
  ⟨mutations_preserve_size_invariants.1 (fun _ => false) "sheet-1" "Clientes"
      [[("cnpj", Value.vStr "11222333000181")]] "user-1" 0,
   mutations_preserve_size_invariants.2 sampleSheet
      (Mutation.mAddRow [("nome", Value.vStr "A")] "u" 3) ⟨rfl, rfl⟩⟩

/-! ## Cancellation lifecycle (claims C2, C6, C7) -/

/-- C2: the claim fails on the code.  Cancelling after the first batch has
been dispatched (and run) but before the dispatch check of the second
leaves only the first batch's item processed, yet the session does not end
`cancelled`: lines 87-93 of `startEnrichment` unconditionally overwrite
the status with `completed` (and the percentage with 100) once
`processBatchesInParallel` returns, so `cancelled` is not terminal. -/
theorem cancelled_session_ends_completed :
    (startEnrichmentModel (fun _ => []) (some (.beforeDispatch 1)) 5
        [Value.vNum 1, Value.vNum 2] 1 none "sess-1" 0 9).status = .completed ∧
    (startEnrichmentModel (fun _ => []) (some (.beforeDispatch 1)) 5
        [Value.vNum 1, Value.vNum 2] 1 none "sess-1" 0 9).status ≠ .cancelled ∧
    (startEnrichmentModel (fun _ => []) (some (.beforeDispatch 1)) 5
        [Value.vNum 1, Value.vNum 2] 1 none "sess-1" 0 9).progress.processed = 1 ∧
    (processBatchesInParallelModel (fun _ => []) (some (.beforeDispatch 1)) 5 1 none
        (createBatches 1 [Value.vNum 1, Value.vNum 2])
        { id := "sess-1", status := .pending,
          progress := { processed := 0, total := 2, percentage := 0, currentBatch := 0 },
          results := [], startTime := 0 }).status = .cancelled :=
  ⟨rfl, by decide, rfl, rfl⟩

/-- C6: the claim fails on the code.  `cancelEnrichment` has no
terminal-state guard: on a session whose status is already `completed`
(with `endTime` 5) it rewrites the status to `cancelled` and the
`endTime` to the cancellation time 9 — not a no-op. -/
theorem cancel_on_completed_mutates :
    (alookup (cancelEnrichment [("sess-1", completedSessionExample)] "sess-1" 9) "sess-1").map
        (fun s => s.status) = some SessionStatus.cancelled ∧
    (alookup (cancelEnrichment [("sess-1", completedSessionExample)] "sess-1" 9) "sess-1").map
        (fun s => s.endTime) = some (some 9) ∧
    completedSessionExample.status = SessionStatus.completed ∧
    completedSessionExample.endTime = some 5 :=
  ⟨rfl, rfl, rfl, rfl⟩

/-- C6 (amended): calling `cancelEnrichment` on a session whose status is
already terminal is not a no-op: for any existing session it sets the
status to `cancelled` and the end time to the cancellation time, leaving
progress and results unchanged; only a call with an unknown session id
leaves the store untouched. -/
theorem cancelEnrichment_always_cancels (sessions : List (String × EnrichmentSession))
    (sid : String) (t : Nat) :
    (∀ s, alookup sessions sid = some s →
      alookup (cancelEnrichment sessions sid t) sid =
        some { s with status := .cancelled, endTime := some t }) ∧
    (alookup sessions sid = none → cancelEnrichment sessions sid t = sessions) := by
  constructor
  · intro s h
    unfold cancelEnrichment
    rw [h]
    exact alookup_aset_self ..
  · intro h
    unfold cancelEnrichment
    rw [h]

theorem cancelEnrichment_always_cancels_witness :
    alookup (cancelEnrichment [("sess-1", completedSessionExample)] "sess-1" 9) "sess-1" =
      some { completedSessionExample with status := .cancelled, endTime := some 9 } ∧
    cancelEnrichment [("sess-1", completedSessionExample)] "other" 9 =
      [("sess-1", completedSessionExample)] :=
  ⟨(cancelEnrichment_always_cancels [("sess-1", completedSessionExample)] "sess-1" 9).1
      completedSessionExample rfl,
   (cancelEnrichment_always_cancels [("sess-1", completedSessionExample)] "other" 9).2 rfl⟩

theorem cancelSession_progress (t : Nat) (s : EnrichmentSession) :
    (cancelSession t s).progress = s.progress := rfl

theorem batchItemLoop_cancelled_counts (perform : Value → List (String × Value))
    (tc bn bs : Nat) (oi : Option (List Int)) :
    ∀ (items : List Value) (k i : Nat) (s : EnrichmentSession) (acc : List EnrichmentResult),
      s.status = .processing →
      (batchItemLoop perform (some (i + k)) tc bn bs oi items i s acc).1.progress.processed
          = s.progress.processed + min k items.length ∧
      (batchItemLoop perform (some (i + k)) tc bn bs oi items i s acc).2.length
          = acc.length + min k items.length ∧
      (batchItemLoop perform (some (i + k)) tc bn bs oi items i s acc).1.results
          = s.results := by
  intro items
  induction items with
  | nil =>
      intro k i s acc hs
      simp [batchItemLoop]
  | cons item rest ih =>
      intro k i s acc hs
      match k with
      | 0 =>
          have hfire : (some (i + 0) : Option Nat) = some i := by simp
          simp only [batchItemLoop, hfire, if_pos rfl]
          simp [cancelSession, hs]
      | Nat.succ j =>
          have harg : i + (j + 1) = (i + 1) + j := by omega
          rw [harg]
          simp only [batchItemLoop]
          rw [if_neg (show ¬ ((some (i + 1 + j) : Option Nat) = some i) by
            simp only [Option.some.injEq]; omega)]
          rw [if_neg (show ¬ (s.status = SessionStatus.cancelled) by rw [hs]; decide)]
          refine ⟨?_, ?_, ?_⟩
          · refine ((ih j (i + 1) _ _ ?_).1).trans ?_
            · exact hs
            · show s.progress.processed + 1 + min j rest.length
                = s.progress.processed + min (j + 1) (rest.length + 1)
              rw [Nat.succ_min_succ]
              omega
          · refine ((ih j (i + 1) _ _ ?_).2.1).trans ?_
            · exact hs
            · simp only [List.length_append, List.length_cons, List.length_nil]
              rw [Nat.succ_min_succ]
              omega
          · refine ((ih j (i + 1) _ _ ?_).2.2).trans ?_
            · exact hs
            · rfl

theorem batchItemLoop_uncancelled_counts (perform : Value → List (String × Value))
    (tc bn bs : Nat) (oi : Option (List Int)) :
    ∀ (items : List Value) (i : Nat) (s : EnrichmentSession) (acc : List EnrichmentResult),
      s.status = .processing →
      (batchItemLoop perform none tc bn bs oi items i s acc).1.progress.processed
          = s.progress.processed + items.length ∧
      (batchItemLoop perform none tc bn bs oi items i s acc).2.length
          = acc.length + items.length ∧
      (batchItemLoop perform none tc bn bs oi items i s acc).1.results = s.results := by
  intro items
  induction items with
  | nil =>
      intro i s acc hs
      simp [batchItemLoop]
  | cons item rest ih =>
      intro i s acc hs
      simp only [batchItemLoop]
      rw [if_neg (show ¬ ((none : Option Nat) = some i) by simp)]
      rw [if_neg (show ¬ (s.status = SessionStatus.cancelled) by rw [hs]; decide)]
      refine ⟨?_, ?_, ?_⟩
      · refine ((ih (i + 1) _ _ ?_).1).trans ?_
        · exact hs
        · show s.progress.processed + 1 + rest.length = s.progress.processed + (rest.length + 1)
          omega
      · refine ((ih (i + 1) _ _ ?_).2.1).trans ?_
        · exact hs
        · simp only [List.length_append, List.length_cons, List.length_nil]
          omega
      · refine ((ih (i + 1) _ _ ?_).2.2).trans ?_
        · exact hs
        · rfl

/-- C7: the claim fails on the code.  `processBatch` re-checks
`session.status === 'cancelled'` at the head of its per-item loop and
`break`s, so a batch that has already started does NOT process every one
of its items: with a 2-item batch and cancellation delivered at the
boundary before item 1, only 1 of the 2 items is processed. -/
theorem cancelled_mid_batch_stops_early :
    (processBatchModel (fun _ => []) (some 1) 7 [Value.vNum 1, Value.vNum 2] 1 50 none
        processingSessionExample).progress.processed = 1 ∧
    ([Value.vNum 1, Value.vNum 2] : List Value).length = 2 ∧
    (1 : Nat) ≠ 2 :=
  ⟨rfl, rfl, by decide⟩

/-- C7 (amended): cancellation is cooperative and checked at batch-dispatch
boundaries AND before each item inside an in-flight batch: a processing
session whose cancellation lands at the boundary before item `k` of a
batch processes exactly `min k batch.length` further items (recording
partial results for exactly those); with no cancellation the batch
processes all its items; and a batch dispatched after cancellation
(`processBatch`'s entry check) does nothing at all. -/
theorem cancellation_checked_at_item_boundaries (perform : Value → List (String × Value))
    (tc bn bs : Nat) (oi : Option (List Int)) :
    (∀ (batch : List Value) (k : Nat) (s : EnrichmentSession), s.status = .processing →
      (processBatchModel perform (some k) tc batch bn bs oi s).progress.processed
          = s.progress.processed + min k batch.length ∧
      (processBatchModel perform (some k) tc batch bn bs oi s).results.length
          = s.results.length + min k batch.length) ∧
    (∀ (batch : List Value) (s : EnrichmentSession), s.status = .processing →
      (processBatchModel perform none tc batch bn bs oi s).progress.processed
          = s.progress.processed + batch.length) ∧
    (∀ (ca : Option Nat) (batch : List Value) (s : EnrichmentSession),
      s.status = .cancelled → processBatchModel perform ca tc batch bn bs oi s = s) := by
  refine ⟨?_, ?_, ?_⟩
  · intro batch k s hs
    have hloop := batchItemLoop_cancelled_counts perform tc bn bs oi batch k 0 s [] hs
    rw [Nat.zero_add] at hloop
    obtain ⟨h1, h2, h3⟩ := hloop
    unfold processBatchModel
    rw [if_neg (show ¬ (s.status = SessionStatus.cancelled) by rw [hs]; decide)]
    by_cases hpos : (batchItemLoop perform (some k) tc bn bs oi batch 0 s []).2.length > 0
    · simp only [if_pos hpos]
      refine ⟨h1, ?_⟩
      simp only [List.length_append]
      rw [h3, h2]
      simp
    · simp only [if_neg hpos]
      refine ⟨h1, ?_⟩
      rw [h3]
      rw [h2] at hpos
      simp only [List.length_nil, Nat.zero_add] at hpos
      omega
  · intro batch s hs
    have hloop := batchItemLoop_uncancelled_counts perform tc bn bs oi batch 0 s [] hs
    unfold processBatchModel
    rw [if_neg (show ¬ (s.status = SessionStatus.cancelled) by rw [hs]; decide)]
    by_cases hpos : (batchItemLoop perform none tc bn bs oi batch 0 s []).2.length > 0
    · simp only [if_pos hpos]
      exact hloop.1
    · simp only [if_neg hpos]
      exact hloop.1
  · intro ca batch s hs
    unfold processBatchModel
    rw [if_pos (show s.status = SessionStatus.cancelled from hs)]

theorem cancellation_checked_at_item_boundaries_witness :
    (processBatchModel (fun _ => []) (some 1) 7 [Value.vNum 1, Value.vNum 2] 1 50 none
        processingSessionExample).progress.processed
      = processingSessionExample.progress.processed + min 1 2 ∧
    (processBatchModel (fun _ => []) none 7 [Value.vNum 1, Value.vNum 2] 1 50 none
        processingSessionExample).progress.processed
      = processingSessionExample.progress.processed + 2 :=
  ⟨((cancellation_checked_at_item_boundaries (fun _ => []) 7 1 50 none).1
      [Value.vNum 1, Value.vNum 2] 1 processingSessionExample rfl).1,
   (cancellation_checked_at_item_boundaries (fun _ => []) 7 1 50 none).2.1
      [Value.vNum 1, Value.vNum 2] processingSessionExample rfl⟩

/-! ## Idempotence of enrichment (claims C3, C10) -/

theorem foldl_applyOneResult_rows_length (now : Nat) :
    ∀ (results : List EnrichmentResult) (s : Sheet),
      (results.foldl (applyOneResult now) s).rows.length = s.rows.length := by
  intro results
  induction results with
  | nil => intro s; rfl
  | cons r rest ih =>
      intro s
      simp only [List.foldl_cons]
      rw [ih, applyOneResult_rows_length]

theorem applyOneResult_marks (now : Nat) (s : Sheet) (r : EnrichmentResult)
    (h0 : 0 ≤ r.rowIndex) (h1 : r.rowIndex < (s.rows.length : Int)) :
    markedAt (applyOneResult now s r) r.rowIndex.toNat := by
  have hlt : r.rowIndex.toNat < s.rows.length := by omega
  unfold applyOneResult
  rw [if_pos ⟨h0, h1⟩]
  refine ⟨_, List.getElem?_set_eq_of_lt _ hlt, ?_⟩
  rw [alookup_aset_ne _ "_enriched_at" "_enriched" _ (by decide)]
  exact alookup_aset_self ..

theorem applyOneResult_preserves_marked (now : Nat) (s : Sheet) (r : EnrichmentResult)
    (j : Nat) (hm : markedAt s j) : markedAt (applyOneResult now s r) j := by
  by_cases hrange : 0 ≤ r.rowIndex ∧ r.rowIndex < (s.rows.length : Int)
  · by_cases hj : j = r.rowIndex.toNat
    · rw [hj]
      exact applyOneResult_marks now s r hrange.1 hrange.2
    · obtain ⟨row, hrow, hmark⟩ := hm
      unfold applyOneResult
      rw [if_pos hrange]
      refine ⟨row, ?_, hmark⟩
      show (s.rows.set r.rowIndex.toNat _)[j]? = some row
      rw [List.getElem?_set_ne (fun hc => hj hc.symm)]
      exact hrow
  · unfold applyOneResult
    rw [if_neg hrange]
    exact hm

theorem foldl_preserves_marked (now : Nat) :
    ∀ (results : List EnrichmentResult) (s : Sheet) (j : Nat),
      markedAt s j → markedAt (results.foldl (applyOneResult now) s) j := by
  intro results
  induction results with
  | nil => intro s j hm; exact hm
  | cons r rest ih =>
      intro s j hm
      exact ih (applyOneResult now s r) j (applyOneResult_preserves_marked now s r j hm)

theorem foldl_applyOneResult_marks (now : Nat) :
    ∀ (results : List EnrichmentResult) (s : Sheet),
      (∀ r ∈ results, 0 ≤ r.rowIndex ∧ r.rowIndex < (s.rows.length : Int)) →
      ∀ r ∈ results, markedAt (results.foldl (applyOneResult now) s) r.rowIndex.toNat := by
  intro results
  induction results with
  | nil => intro s _ r hr; cases hr
  | cons r0 rest ih =>
      intro s hin r hr
      simp only [List.foldl_cons]
      rcases List.mem_cons.mp hr with h | h
      · rw [h]
        exact foldl_preserves_marked now rest _ _
          (applyOneResult_marks now s r0 (hin r0 (List.mem_cons_self r0 rest)).1
            (hin r0 (List.mem_cons_self r0 rest)).2)
      · refine ih (applyOneResult now s r0) ?_ r h
        intro r' hr'
        have := hin r' (List.mem_cons_of_mem r0 hr')
        rw [applyOneResult_rows_length]
        exact this

theorem alookup_simpleRowOf (row : Row) (k : String) :
    alookup (simpleRowOf row) k = (alookup row k).map Cell.value := by
  induction row with
  | nil => rfl
  | cons p rest ih =>
      obtain ⟨k', c⟩ := p
      by_cases h : k' = k
      · simp [simpleRowOf, alookup, h]
      · simp only [simpleRowOf, List.map_cons, alookup, if_neg h]
        simpa [simpleRowOf] using ih

theorem marked_not_in_unenriched (s : Sheet) (f : String) (i : Nat)
    (hm : markedAt s i) : i ∉ (getUnenrichedRowsPure s f).map Prod.fst := by
  intro hmem
  obtain ⟨row, hrow, hmark⟩ := hm
  obtain ⟨p, hp, hpi⟩ := List.mem_map.mp hmem
  obtain ⟨q, hq, hgq⟩ := List.mem_filterMap.mp hp
  have hqrow : s.rows[q.1]? = some q.2 := List.mem_enum_iff_getElem?.mp hq
  by_cases hcond : (rowHasCnpj (simpleRowOf q.2) f && !rowIsEnriched (simpleRowOf q.2)) = true
  · have hpq : p = (q.1, simpleRowOf q.2) := by
      simp only [if_pos hcond] at hgq
      exact (Option.some.injEq _ _).mp hgq |>.symm
    have hi : q.1 = i := by rw [hpq] at hpi; exact hpi
    rw [hi] at hqrow
    rw [hrow] at hqrow
    have hq2 : q.2 = row := ((Option.some.injEq _ _).mp hqrow).symm
    have henr : rowIsEnriched (simpleRowOf q.2) = true := by
      unfold rowIsEnriched
      rw [alookup_simpleRowOf, hq2, hmark]
      rfl
    rw [henr] at hcond
    simp at hcond
  · simp only [if_neg hcond] at hgq
    cases hgq

/-- C3: after `applyEnrichmentResults` with result rows all inside the
sheet's current row range, every result row carries the `_enriched = true`
marker, and `getUnenrichedRows` returns no row whose index appears in the
results — a second enrichment pass over the same sheet processes zero of
those rows. -/
theorem enrichment_excludes_rows (s : Sheet) (results : List EnrichmentResult)
    (now : Nat) (f : String)
    (hin : ∀ r ∈ results, 0 ≤ r.rowIndex ∧ r.rowIndex < (s.rows.length : Int)) :
    ∀ r ∈ results,
      markedAt (applyEnrichmentResultsPure s results now) r.rowIndex.toNat ∧
      r.rowIndex.toNat ∉
        (getUnenrichedRowsPure (applyEnrichmentResultsPure s results now) f).map Prod.fst := by
  intro r hr
  have hmark : markedAt (applyEnrichmentResultsPure s results now) r.rowIndex.toNat :=
    foldl_applyOneResult_marks now results s hin r hr
  exact ⟨hmark, marked_not_in_unenriched _ f _ hmark⟩

theorem enrichment_excludes_rows_witness :
    markedAt (applyEnrichmentResultsPure sampleSheet [c3WitnessResult] 5) 0 ∧
    (0 : Nat) ∉ (getUnenrichedRowsPure
      (applyEnrichmentResultsPure sampleSheet [c3WitnessResult] 5) "cnpj").map Prod.fst := by
  have h := enrichment_excludes_rows sampleSheet [c3WitnessResult] 5 "cnpj"
      (by intro r hr
          rw [List.mem_singleton.mp hr]
          exact ⟨by decide, by decide⟩)
      c3WitnessResult (List.mem_singleton.mpr rfl)
  exact h

/-- C10: `applyEnrichmentResults` sets `_enriched = true` on an in-range
result row even when its `enrichedFields` is the per-item error payload
(`{error: true, error_message, error_code}`) produced by a failed lookup,
so a row whose lookup failed is excluded from every subsequent
`getUnenrichedRows` selection and is never retried by a later pass. -/
theorem error_payload_row_not_retried (s : Sheet) (i : Int) (d : Value)
    (msg code : String) (now : Nat) (f : String)
    (h0 : 0 ≤ i) (h1 : i < (s.rows.length : Int)) :
    markedAt (applyEnrichmentResultsPure s
      [{ rowIndex := i, data := d, enrichedFields := enrichmentErrorPayload msg code }] now)
      i.toNat ∧
    i.toNat ∉ (getUnenrichedRowsPure (applyEnrichmentResultsPure s
      [{ rowIndex := i, data := d, enrichedFields := enrichmentErrorPayload msg code }] now)
      f).map Prod.fst := by
  have hmark : markedAt (applyEnrichmentResultsPure s
      [{ rowIndex := i, data := d, enrichedFields := enrichmentErrorPayload msg code }] now)
      i.toNat :=
    applyOneResult_marks now s
      { rowIndex := i, data := d, enrichedFields := enrichmentErrorPayload msg code } h0 h1
  exact ⟨hmark, marked_not_in_unenriched _ f _ hmark⟩

theorem error_payload_row_not_retried_witness :
    markedAt (applyEnrichmentResultsPure sampleSheet
      [{ rowIndex := 0, data := Value.vNull,
         enrichedFields := enrichmentErrorPayload "CNPJ nao encontrado no item" "CNPJ_NOT_FOUND" }] 7)
      (0 : Int).toNat ∧
    (0 : Int).toNat ∉ (getUnenrichedRowsPure (applyEnrichmentResultsPure sampleSheet
      [{ rowIndex := 0, data := Value.vNull,
         enrichedFields := enrichmentErrorPayload "CNPJ nao encontrado no item" "CNPJ_NOT_FOUND" }] 7)
      "cnpj").map Prod.fst :=
  error_payload_row_not_retried sampleSheet 0 Value.vNull
    "CNPJ nao encontrado no item" "CNPJ_NOT_FOUND" 7 "cnpj" (by decide) (by decide)

/-! ## Tax-id validation (claim C4) -/

theorem allSameDigit_iff (l : List Char) :
    allSameDigit l = true ↔ ∀ c ∈ l, c = l.headD '0' := by
  cases l with
  | nil => simp [allSameDigit]
  | cons a as =>
      simp only [allSameDigit, List.all_eq_true, decide_eq_true_eq, List.headD_cons]
      constructor
      · intro h c hc
        rcases List.mem_cons.mp hc with h1 | h2
        · exact h1
        · exact h c h2
      · intro h c hc
        exact h c (List.mem_cons_of_mem a hc)

theorem checkDigits_iff (ds : List Nat) :
    validateCNPJCheckDigits ds = true ↔
      (ds.getD 12 0 =
        (if (weightedSum (ds.take 12) [5, 4, 3, 2, 9, 8, 7, 6, 5, 4, 3, 2]) % 11 < 2 then 0
         else 11 - (weightedSum (ds.take 12) [5, 4, 3, 2, 9, 8, 7, 6, 5, 4, 3, 2]) % 11) ∧
       ds.getD 13 0 =
        (if (weightedSum (ds.take 13) [6, 5, 4, 3, 2, 9, 8, 7, 6, 5, 4, 3, 2]) % 11 < 2 then 0
         else 11 - (weightedSum (ds.take 13) [6, 5, 4, 3, 2, 9, 8, 7, 6, 5, 4, 3, 2]) % 11)) := by
  show (if cnpjCheckDigit (weightedSum (ds.take 12) cnpjWeights1) ≠ ds.getD 12 0 then false
        else decide (cnpjCheckDigit (weightedSum (ds.take 13) cnpjWeights2) = ds.getD 13 0)) = true
      ↔ _
  by_cases h12 : cnpjCheckDigit (weightedSum (ds.take 12) cnpjWeights1) = ds.getD 12 0
  · rw [if_neg (by simpa using h12)]
    simp only [decide_eq_true_eq]
    constructor
    · intro h13
      exact ⟨h12.symm, h13.symm⟩
    · intro h
      exact h.2.symm
  · rw [if_pos (by simpa using h12)]
    simp only [Bool.false_eq_true, false_iff]
    intro h
    exact h12 h.1.symm

theorem cnpjValid_list_iff (l : List Char) :
    (if l.length ≠ 14 then false
     else if allSameDigit l then false
     else validateCNPJCheckDigits (l.map digitVal)) = true ↔
    (l.length = 14 ∧
     (¬ ∀ c ∈ l, c = l.headD '0') ∧
     (l.map digitVal).getD 12 0 =
       (if (weightedSum ((l.map digitVal).take 12) [5, 4, 3, 2, 9, 8, 7, 6, 5, 4, 3, 2]) % 11 < 2 then 0
        else 11 - (weightedSum ((l.map digitVal).take 12) [5, 4, 3, 2, 9, 8, 7, 6, 5, 4, 3, 2]) % 11) ∧
     (l.map digitVal).getD 13 0 =
       (if (weightedSum ((l.map digitVal).take 13) [6, 5, 4, 3, 2, 9, 8, 7, 6, 5, 4, 3, 2]) % 11 < 2 then 0
        else 11 - (weightedSum ((l.map digitVal).take 13) [6, 5, 4, 3, 2, 9, 8, 7, 6, 5, 4, 3, 2]) % 11)) := by
  by_cases hlen : l.length = 14
  · rw [if_neg (by simp [hlen])]
    by_cases hsame : allSameDigit l = true
    · rw [if_pos hsame]
      simp only [Bool.false_eq_true, false_iff]
      rintro ⟨_, hns, _⟩
      exact hns ((allSameDigit_iff l).mp hsame)
    · rw [if_neg hsame]
      rw [checkDigits_iff]
      constructor
      · rintro ⟨h1, h2⟩
        exact ⟨hlen, fun hall => hsame ((allSameDigit_iff l).mpr hall), h1, h2⟩
      · rintro ⟨_, _, h1, h2⟩
        exact ⟨h1, h2⟩
  · rw [if_pos hlen]
    simp only [Bool.false_eq_true, false_iff]
    rintro ⟨h, _⟩
    exact hlen h

theorem allSameDigit_of_const (l : List Char) (c : Char) (h : ∀ x ∈ l, x = c) :
    allSameDigit l = true := by
  cases l with
  | nil => rfl
  | cons a as =>
      simp only [allSameDigit, List.all_eq_true, decide_eq_true_eq]
      intro x hx
      rw [h x (List.mem_cons_of_mem a hx), h a (List.mem_cons_self a as)]

/-- C4: the tax-id validator accepts a string iff, after stripping all
non-digit characters, exactly 14 digits remain, they are not all
identical, and both check digits are correct under the two-pass
weighted-modulo-11 algorithm of the spec; `"11.222.333/0001-81"` and
`"11222333000181"` validate equivalently (both accepted); every string
stripping to 13 digits is rejected; and every all-identical-character
string (in particular `"11111111111111"`) is rejected. -/
theorem validateCNPJ_matches_spec :
    (∀ s, validateCNPJFormat s = true ↔ cnpjSpecValid s) ∧
    validateCNPJFormat "11.222.333/0001-81" = validateCNPJFormat "11222333000181" ∧
    validateCNPJFormat "11222333000181" = true ∧
    (∀ s, (cleanCNPJ s).length = 13 → validateCNPJFormat s = false) ∧
    (∀ (s : String) (c : Char), (∀ x ∈ s.data, x = c) → validateCNPJFormat s = false) := by
  refine ⟨?_, by decide, by decide, ?_, ?_⟩
  · intro s
    exact cnpjValid_list_iff (s.data.filter Char.isDigit)
  · intro s h
    show (if (cleanCNPJ s).length ≠ 14 then false
          else if allSameDigit (cleanCNPJ s) then false
          else validateCNPJCheckDigits ((cleanCNPJ s).map digitVal)) = false
    rw [if_pos (by omega)]
  · intro s c h
    show (if (s.data.filter Char.isDigit).length ≠ 14 then false
          else if allSameDigit (s.data.filter Char.isDigit) then false
          else validateCNPJCheckDigits ((s.data.filter Char.isDigit).map digitVal)) = false
    by_cases hlen : (s.data.filter Char.isDigit).length = 14
    · rw [if_neg (by omega)]
      rw [if_pos (allSameDigit_of_const (s.data.filter Char.isDigit) c
        (fun x hx => h x (List.mem_of_mem_filter hx)))]
    · rw [if_pos hlen]

theorem validateCNPJ_matches_spec_witness :
    cnpjSpecValid "11222333000181" ∧
    validateCNPJFormat "1234567890123" = false ∧
    validateCNPJFormat "11111111111111" = false :=
  ⟨(validateCNPJ_matches_spec.1 "11222333000181").mp (by decide),
   validateCNPJ_matches_spec.2.2.2.1 "1234567890123" (by decide),
   validateCNPJ_matches_spec.2.2.2.2 "11111111111111" '1' (by decide)⟩

/-! ## Presence tracking (claim C5) -/

/-- C5: the claim fails on the code and the code contradicts its intent.
`userJoinSheet` never populates the `sheetUsers` and `userCursors` maps,
yet `userLeaveSheet` dereferences them with a non-null assertion
(`this.sheetUsers.get(sheetId)!.delete(userId)`), so leaving a sheet the
user actually joined throws a `TypeError` instead of returning the
`user_left` event. -/
theorem leave_after_join_throws :
    userLeaveSheet (userJoinSheet emptyCollab "s1" "u1" "Alice" "sock1" 0).2 "s1" "u1" 1
      = .error (.typeError "Cannot read properties of undefined (reading 'delete')") := rfl

/-! ## Unknown-id failure semantics (claim C8) -/

/-- C8: the claim fails on the code for `getOperationHistory`, which
returns an empty history (a result) for an unknown sheet id instead of
failing with a NotFound condition. -/
theorem getOperationHistory_unknown_returns_result :
    getOperationHistorySvc emptySvc "missing" 100 = [] := rfl

/-- C8 (amended): with an unknown sheet id, `getSheet`, `getSheetData`,
`updateCell`, `addRow` and `addColumn` throw `NotFoundException`, and
`applyEnrichmentResults`, `getUnenrichedRows`, `getEnrichmentStats` and
`markCellsAsLoading` throw a plain `Error` saying the sheet was not
found; `getOperationHistory`, however, returns an empty history instead
of failing. -/
theorem unknown_sheet_semantics (st : SvcState) (sid : String)
    (h : alookup st.sheets sid = none) (hops : alookup st.operations sid = none) :
    getSheetSvc st sid
      = .error (.notFoundException ("Sheet with ID " ++ sid ++ " not found")) ∧
    getSheetDataSvc st sid
      = .error (.notFoundException ("Sheet with ID " ++ sid ++ " not found")) ∧
    (∀ ri cid v uid now, updateCellSvc st sid ri cid v uid now
      = .error (.notFoundException ("Sheet with ID " ++ sid ++ " not found"))) ∧
    (∀ data uid now, addRowSvc st sid data uid now
      = .error (.notFoundException ("Sheet with ID " ++ sid ++ " not found"))) ∧
    (∀ name ctype e o uid now, addColumnSvc st sid name ctype e o uid now
      = .error (.notFoundException ("Sheet with ID " ++ sid ++ " not found"))) ∧
    (∀ results now, applyEnrichmentResultsSvc st sid results now
      = .error (.jsError ("Sheet " ++ sid ++ " not found"))) ∧
    (∀ f, getUnenrichedRowsSvc st sid f
      = .error (.jsError ("Sheet " ++ sid ++ " not found"))) ∧
    (∀ f, getEnrichmentStatsSvc st sid f
      = .error (.jsError ("Sheet " ++ sid ++ " not found"))) ∧
    (∀ ris cids now, markCellsAsLoadingSvc st sid ris cids now
      = .error (.jsError ("Sheet " ++ sid ++ " not found"))) ∧
    (∀ limit, getOperationHistorySvc st sid limit = []) := by
  refine ⟨?_, ?_, ?_, ?_, ?_, ?_, ?_, ?_, ?_, ?_⟩
  · unfold getSheetSvc; rw [h]
  · unfold getSheetDataSvc getSheetSvc; rw [h]; rfl
  · intro ri cid v uid now; unfold updateCellSvc getSheetSvc; rw [h]; rfl
  · intro data uid now; unfold addRowSvc getSheetSvc; rw [h]; rfl
  · intro name ctype e o uid now; unfold addColumnSvc getSheetSvc; rw [h]; rfl
  · intro results now; unfold applyEnrichmentResultsSvc; rw [h]
  · intro f; unfold getUnenrichedRowsSvc; rw [h]
  · intro f; unfold getEnrichmentStatsSvc; rw [h]
  · intro ris cids now; unfold markCellsAsLoadingSvc; rw [h]
  · intro limit
    unfold getOperationHistorySvc
    rw [hops]
    simp only [Option.getD_none, List.length_nil, List.drop_nil, List.reverse_nil]
    split <;> rfl

theorem unknown_sheet_semantics_witness :
    getSheetSvc emptySvc "missing"
      = .error (.notFoundException ("Sheet with ID " ++ "missing" ++ " not found")) ∧
    (∀ limit, getOperationHistorySvc emptySvc "missing" limit = []) :=
  ⟨(unknown_sheet_semantics emptySvc "missing" rfl rfl).1,
   (unknown_sheet_semantics emptySvc "missing" rfl rfl).2.2.2.2.2.2.2.2.2⟩

end Enrichment
